import Mathlib

/-!
# Verification of the librightstuff consensus core message layer

A shallow embedding of `include/hotstuff/consensus.h` (and the parts of the
wire format that the missing headers `entity.h` / `crypto.h` fix only through
the spec).  Byte streams are lists of naturals (< 256 by construction);
serialization appends to the stream, deserialization consumes a prefix and
returns the remaining stream, mirroring `salticidae::DataStream`.
All multi-byte scalars are little-endian, as the wire-format section of the
spec states.
-/

namespace HotStuff

/-- A byte stream, as produced/consumed by `salticidae::DataStream`. -/
abbrev Bytes := List Nat

/-- Little-endian encoding of `n` into exactly `w` bytes (`DataStream::operator<<`
on a `w`-byte unsigned integer; the value is truncated mod `256^w` as the
machine integer would be). -/
def toLE : Nat → Nat → Bytes
  | 0, _ => []
  | w + 1, n => n % 256 :: toLE w (n / 256)

/-- Read `w` little-endian bytes from the head of the stream
(`DataStream::operator>>` on a `w`-byte unsigned integer); fails when the
stream is too short. -/
def readLE : Nat → Bytes → Option (Nat × Bytes)
  | 0, s => some (0, s)
  | _ + 1, [] => none
  | w + 1, b :: s =>
    match readLE w s with
    | some (n, rest) => some (b + 256 * n, rest)
    | none => none

theorem toLE_length (w n : Nat) : (toLE w n).length = w := by
  induction w generalizing n with
  | zero => rfl
  | succ k ih => simp [toLE, ih]

theorem toLE_lt (w n : Nat) : ∀ b ∈ toLE w n, b < 256 := by
  induction w generalizing n with
  | zero => intro b hb; cases hb
  | succ k ih =>
    intro b hb
    cases hb with
    | head => exact Nat.mod_lt _ (by omega)
    | tail _ h => exact ih _ _ h

/-- Reading back a `w`-byte little-endian encoding recovers the value mod
`256^w` and leaves the rest of the stream untouched. -/
theorem readLE_toLE (w n : Nat) (rest : Bytes) :
    readLE w (toLE w n ++ rest) = some (n % 256 ^ w, rest) := by
  induction w generalizing n with
  | zero => simp [toLE, readLE, Nat.mod_one]
  | succ k ih =>
    have h : 256 ^ (k + 1) = 256 * 256 ^ k := by ring
    simp only [toLE, List.cons_append, readLE, List.append_eq, ih, h, Nat.mod_mul]

theorem readLE_toLE_of_lt (w n : Nat) (rest : Bytes) (h : n < 256 ^ w) :
    readLE w (toLE w n ++ rest) = some (n, rest) := by
  rw [readLE_toLE, Nat.mod_eq_of_lt h]

theorem readLE_one_cons (b : Nat) (s : Bytes) : readLE 1 (b :: s) = some (b, s) := by
  simp [readLE]

/-- `DataStream` write of a one-byte unsigned value (`s << (uint8_t)v`). -/
def DataStream.putU8 (s : Bytes) (v : Nat) : Bytes := s ++ toLE 1 v

/-- `DataStream` write of a `uint16_t` (`ReplicaID`), little-endian. -/
def DataStream.putU16 (s : Bytes) (v : Nat) : Bytes := s ++ toLE 2 v

/-- `DataStream` write of a `uint32_t`, little-endian. -/
def DataStream.putU32 (s : Bytes) (v : Nat) : Bytes := s ++ toLE 4 v

/-- `DataStream` write of a `uint256_t` (32 raw bytes). -/
def DataStream.putU256 (s : Bytes) (v : Nat) : Bytes := s ++ toLE 32 v

/-- `DataStream` write of an `int8_t` (one byte, two's complement). -/
def DataStream.putI8 (s : Bytes) (v : Int) : Bytes := s ++ [(v % 256).toNat]

/-- Decode a byte as an `int8_t` value (two's complement). -/
def byteToI8 (b : Nat) : Int := if b < 128 then (b : Int) else (b : Int) - 256

/-- `enum ProofType { VOTE = 0x00, BLAME = 0x01 }` (consensus.h:189-192). -/
def ProofType.VOTE : Nat := 0x00

/-- `enum ProofType { VOTE = 0x00, BLAME = 0x01 }` (consensus.h:189-192). -/
def ProofType.BLAME : Nat := 0x01

/-- The replica configuration, as used by the message layer
(`ReplicaConfig` lives in the absent `entity.h`).  Modelled with the three
members the spec names: `nmajority`, `delta` (`Δ` is a `double` that is only
copied, never computed with, so it is modelled by an opaque numeric value),
and the `ReplicaID → PublicKey` map behind `get_pubkey` (public keys modelled
as opaque numerals). -/
structure ReplicaConfig where
  nmajority : Nat
  delta : Nat
  pubkeys : Nat → Nat

/-- `ReplicaConfig::get_pubkey(id)`. -/
def ReplicaConfig.get_pubkey (cfg : ReplicaConfig) (rid : Nat) : Nat :=
  cfg.pubkeys rid

/-- Modelled from the spec: `PartialCert` (crypto.h is not in src/) carries
`(proof_text_hash, signature)`; `get_blk_hash()` returns the stored
proof-text hash.  On the wire the hash takes 32 bytes and the signature a
fixed 64 bytes. -/
structure PartCert where
  blk_hash : Nat
  sig : Nat
  deriving DecidableEq

/-- Modelled from the spec: serialized form of a `PartialCert`. -/
def PartCert.serialize (c : PartCert) : Bytes :=
  toLE 32 c.blk_hash ++ toLE 64 c.sig

/-- Modelled from the spec: `parse_part_cert`, inverse of `PartCert.serialize`. -/
def PartCert.parse (s : Bytes) : Option (PartCert × Bytes) := do
  let (h, s) ← readLE 32 s
  let (g, s) ← readLE 64 s
  pure (⟨h, g⟩, s)

/-- Field bounds making a `PartCert` representable on the wire. -/
def PartCert.wf (c : PartCert) : Bool :=
  decide (c.blk_hash < 256 ^ 32) && decide (c.sig < 256 ^ 64)

/-- Modelled from the spec: `QuorumCert` (crypto.h is not in src/) carries
`(proof_text_hash, aggregated_signatures)`; `get_blk_hash()` returns the
stored proof-text hash.  Aggregated signature material modelled as a fixed
64-byte field. -/
structure QuorumCert where
  blk_hash : Nat
  agg : Nat
  deriving DecidableEq

/-- Modelled from the spec: serialized form of a `QuorumCert`. -/
def QuorumCert.serialize (c : QuorumCert) : Bytes :=
  toLE 32 c.blk_hash ++ toLE 64 c.agg

/-- Modelled from the spec: `parse_quorum_cert`, inverse of `QuorumCert.serialize`. -/
def QuorumCert.parse (s : Bytes) : Option (QuorumCert × Bytes) := do
  let (h, s) ← readLE 32 s
  let (g, s) ← readLE 64 s
  pure (⟨h, g⟩, s)

/-- Field bounds making a `QuorumCert` representable on the wire. -/
def QuorumCert.wf (c : QuorumCert) : Bool :=
  decide (c.blk_hash < 256 ^ 32) && decide (c.agg < 256 ^ 64)

/-- Serialize a list of 32-byte hashes back to back. -/
def serU256s : List Nat → Bytes
  | [] => []
  | x :: xs => toLE 32 x ++ serU256s xs

/-- Read `k` 32-byte hashes from the stream. -/
def readU256s : Nat → Bytes → Option (List Nat × Bytes)
  | 0, s => some ([], s)
  | k + 1, s => do
    let (x, s) ← readLE 32 s
    let (xs, s) ← readU256s k s
    pure (x :: xs, s)

/-- Read `w` raw bytes from the stream. -/
def readRaw (w : Nat) (s : Bytes) : Option (Bytes × Bytes) :=
  if w ≤ s.length then some (s.take w, s.drop w) else none

/-- Modelled from the spec: `Block` (entity.h is not in src/) carries the
parent-hash list (first entry is the primary parent), the command-digest
list and the `extra` payload; the embedded QC is carried separately by the
enclosing message in this wire model.  Lists are count-prefixed with a
`uint32_t`. -/
structure Block where
  parent_hashes : List Nat
  cmds : List Nat
  extra : Bytes
  deriving DecidableEq

/-- Modelled from the spec: serialized form of a `Block`. -/
def Block.serialize (b : Block) : Bytes :=
  toLE 4 b.parent_hashes.length ++ serU256s b.parent_hashes ++
  toLE 4 b.cmds.length ++ serU256s b.cmds ++
  toLE 4 b.extra.length ++ b.extra

/-- Modelled from the spec: `Block::unserialize`, inverse of `Block.serialize`. -/
def Block.unserialize (s : Bytes) : Option (Block × Bytes) := do
  let (np, s) ← readLE 4 s
  let (ps, s) ← readU256s np s
  let (nc, s) ← readLE 4 s
  let (cs, s) ← readU256s nc s
  let (ne, s) ← readLE 4 s
  let (ex, s) ← readRaw ne s
  pure (⟨ps, cs, ex⟩, s)

/-- Field bounds making a `Block` representable on the wire. -/
def Block.wf (b : Block) : Bool :=
  decide (b.parent_hashes.length < 256 ^ 4) &&
  b.parent_hashes.all (fun x => decide (x < 256 ^ 32)) &&
  decide (b.cmds.length < 256 ^ 4) &&
  b.cmds.all (fun x => decide (x < 256 ^ 32)) &&
  decide (b.extra.length < 256 ^ 4) &&
  b.extra.all (fun x => decide (x < 256))

/-- The vote proof text: `DataStream p; p << (uint8_t)ProofType::VOTE << blk_hash`
(consensus.h:290-293). -/
def voteProofText (blk_hash : Nat) : Bytes :=
  DataStream.putU256 (DataStream.putU8 [] ProofType.VOTE) blk_hash

/-- The blame proof text: `DataStream p; p << (uint8_t)ProofType::BLAME << view`
(consensus.h:403-406). -/
def blameProofText (view : Nat) : Bytes :=
  DataStream.putU32 (DataStream.putU8 [] ProofType.BLAME) view

/-- `Vote::proof_text_hash(blk_hash)` (consensus.h:290-294), parameterized by
the hash function `H` (`DataStream::get_hash`, SHA256 in salticidae). -/
def Vote.proof_text_hash (H : Bytes → Nat) (blk_hash : Nat) : Nat :=
  H (voteProofText blk_hash)

/-- `Blame::proof_text_hash(view)` (consensus.h:403-407), parameterized by
the hash function `H`. -/
def Blame.proof_text_hash (H : Bytes → Nat) (view : Nat) : Nat :=
  H (blameProofText view)

/-- Modelled from the spec: a resolved `promise_t` carries just its value and
`.then` applies the continuation to it (promise.hpp is not in src/; the spec
says verification tasks are side-effect-free and their results re-enter the
engine as resolved futures). -/
def promiseThen {α β : Type} (x : α) (f : α → β) : β := f x

/-- `struct Vote` (consensus.h:253-316): `voter`, `blk_hash`, `cert`.  The
`hsc` back-reference carries no wire data and is dropped; the `cert` pointer
is modelled non-null (every verify/serialize path dereferences it). -/
structure Vote where
  voter : Nat
  blk_hash : Nat
  cert : PartCert
  deriving DecidableEq

/-- `Vote::serialize`: `s << voter << blk_hash << *cert` (consensus.h:280-282). -/
def Vote.serialize (v : Vote) : Bytes :=
  toLE 2 v.voter ++ toLE 32 v.blk_hash ++ PartCert.serialize v.cert

/-- `Vote::unserialize`: `s >> voter >> blk_hash; cert = parse_part_cert(s)`
(consensus.h:284-288). -/
def Vote.unserialize (s : Bytes) : Option (Vote × Bytes) := do
  let (voter, s) ← readLE 2 s
  let (bh, s) ← readLE 32 s
  let (c, s) ← PartCert.parse s
  pure (⟨voter, bh, c⟩, s)

/-- Field bounds making a `Vote` representable on the wire. -/
def Vote.wf (v : Vote) : Bool :=
  decide (v.voter < 256 ^ 2) && decide (v.blk_hash < 256 ^ 32) && v.cert.wf

/-- `Vote::verify()` (consensus.h:296-300), parameterized by the abstract
signature check `pcVerify` (`cert->verify(pubkey)`) and the hash `H`. -/
def Vote.verify (pcVerify : PartCert → Nat → Bool) (H : Bytes → Nat)
    (cfg : ReplicaConfig) (v : Vote) : Bool :=
  pcVerify v.cert (cfg.get_pubkey v.voter) &&
    (v.cert.blk_hash == Vote.proof_text_hash H v.blk_hash)

/-- `Vote::verify(VeriPool &)` (consensus.h:302-307): the asynchronous check,
a `.then` continuation over the pool's verdict. -/
def Vote.verify_async (pcVerify : PartCert → Nat → Bool) (H : Bytes → Nat)
    (cfg : ReplicaConfig) (v : Vote) : Bool :=
  promiseThen (pcVerify v.cert (cfg.get_pubkey v.voter)) (fun result =>
    result && (v.cert.blk_hash == Vote.proof_text_hash H v.blk_hash))

/-- `struct Notify` (consensus.h:318-366): `blk_hash`, `qc` (the `hsc`
back-reference dropped, the `qc` pointer modelled non-null). -/
structure Notify where
  blk_hash : Nat
  qc : QuorumCert
  deriving DecidableEq

/-- `Notify::serialize`: `s << blk_hash << *qc` (consensus.h:338-340). -/
def Notify.serialize (n : Notify) : Bytes :=
  toLE 32 n.blk_hash ++ QuorumCert.serialize n.qc

/-- `Notify::unserialize`: `s >> blk_hash; qc = parse_quorum_cert(s)`
(consensus.h:342-345). -/
def Notify.unserialize (s : Bytes) : Option (Notify × Bytes) := do
  let (bh, s) ← readLE 32 s
  let (q, s) ← QuorumCert.parse s
  pure (⟨bh, q⟩, s)

/-- Field bounds making a `Notify` representable on the wire. -/
def Notify.wf (n : Notify) : Bool :=
  decide (n.blk_hash < 256 ^ 32) && n.qc.wf

/-- `Notify::verify()` (consensus.h:347-351), parameterized by the abstract
quorum check `qcVerify` (`qc->verify(config)`) and the hash `H`. -/
def Notify.verify (qcVerify : QuorumCert → ReplicaConfig → Bool) (H : Bytes → Nat)
    (cfg : ReplicaConfig) (n : Notify) : Bool :=
  qcVerify n.qc cfg && (n.qc.blk_hash == Vote.proof_text_hash H n.blk_hash)

/-- Serialize a list of `Notify`s back to back
(`for (const auto &v: *status_cert) s << v`). -/
def serNotifies : List Notify → Bytes
  | [] => []
  | n :: ns => Notify.serialize n ++ serNotifies ns

/-- Read `k` `Notify`s from the stream (`status_cert->resize(ns);
for (auto &v: *status_cert) s >> v`). -/
def readNotifies : Nat → Bytes → Option (List Notify × Bytes)
  | 0, s => some ([], s)
  | k + 1, s => do
    let (n, s) ← Notify.unserialize s
    let (ns, s) ← readNotifies k s
    pure (n :: ns, s)

/-- `struct Blame` (consensus.h:368-429): `blamer`, `view`, `cert`. -/
structure Blame where
  blamer : Nat
  view : Nat
  cert : PartCert
  deriving DecidableEq

/-- `Blame::serialize`: `s << blamer << view << *cert` (consensus.h:393-395). -/
def Blame.serialize (b : Blame) : Bytes :=
  toLE 2 b.blamer ++ toLE 4 b.view ++ PartCert.serialize b.cert

/-- `Blame::unserialize`: `s >> blamer >> view; cert = parse_part_cert(s)`
(consensus.h:397-401). -/
def Blame.unserialize (s : Bytes) : Option (Blame × Bytes) := do
  let (br, s) ← readLE 2 s
  let (vw, s) ← readLE 4 s
  let (c, s) ← PartCert.parse s
  pure (⟨br, vw, c⟩, s)

/-- Field bounds making a `Blame` representable on the wire. -/
def Blame.wf (b : Blame) : Bool :=
  decide (b.blamer < 256 ^ 2) && decide (b.view < 256 ^ 4) && b.cert.wf

/-- `struct BlameNotify` (consensus.h:431-479): `view`, `qc`. -/
structure BlameNotify where
  view : Nat
  qc : QuorumCert
  deriving DecidableEq

/-- `BlameNotify::serialize`: `s << view << *qc` (consensus.h:451-453). -/
def BlameNotify.serialize (b : BlameNotify) : Bytes :=
  toLE 4 b.view ++ QuorumCert.serialize b.qc

/-- `BlameNotify::unserialize`: `s >> view; qc = parse_quorum_cert(s)`
(consensus.h:455-458). -/
def BlameNotify.unserialize (s : Bytes) : Option (BlameNotify × Bytes) := do
  let (vw, s) ← readLE 4 s
  let (q, s) ← QuorumCert.parse s
  pure (⟨vw, q⟩, s)

/-- Field bounds making a `BlameNotify` representable on the wire. -/
def BlameNotify.wf (b : BlameNotify) : Bool :=
  decide (b.view < 256 ^ 4) && b.qc.wf

/-- `struct Proposal` (consensus.h:195-250): `proposer`, `blk`, `cert_pblk`,
`status_cert`.  The two `BoxObj` pointer members `cert_pblk` and
`status_cert` are nullable in the source (the default constructor sets both
to `nullptr`) and are modelled as `Option`; the `hsc` back-reference is
dropped.  `blk` is modelled by the block's content (a null `blk` is never
dereferenced by the operations treated here except serialization, which the
claims only exercise on proposals built with a block). -/
structure Proposal where
  proposer : Nat
  blk : Block
  cert_pblk : Option QuorumCert
  status_cert : Option (List Notify)
  deriving DecidableEq

/-- `Proposal()` default constructor (consensus.h:208): `blk(nullptr),
cert_pblk(nullptr), status_cert(nullptr)`. -/
def Proposal.default : Proposal :=
  ⟨0, ⟨[], [], []⟩, none, none⟩

/-- `Proposal::serialize` (consensus.h:226-236): `s << proposer << *blk <<
*cert_pblk`, then a `has_status` byte, then the `Notify`s when `status_cert`
is non-null.  Dereferencing a null `cert_pblk` is modelled as `none`. -/
def Proposal.serialize (p : Proposal) : Option Bytes := do
  let qc ← p.cert_pblk
  let s := toLE 2 p.proposer ++ Block.serialize p.blk ++ QuorumCert.serialize qc
  match p.status_cert with
  | none => pure (DataStream.putU8 s 0)
  | some l => pure (DataStream.putU8 s 1 ++ serNotifies l)

/-- `Proposal::unserialize` (consensus.h:481-497), mirrored faithfully from
the source including its slip: when `has_status` is non-zero the loop reads
`config.nmajority` `Notify`s into a LOCAL `status_cert` vector that shadows
the member and is dropped on scope exit, so the member `status_cert` of the
message being unserialized (`p0`) is never written. -/
def Proposal.unserialize (cfg : ReplicaConfig) (p0 : Proposal) (s : Bytes) :
    Option (Proposal × Bytes) := do
  let (proposer, s) ← readLE 2 s
  let (blk, s) ← Block.unserialize s
  let (qc, s) ← QuorumCert.parse s
  let (has_status, s) ← readLE 1 s
  if has_status ≠ 0 then do
    let (_discarded, s) ← readNotifies cfg.nmajority s
    pure ({ p0 with proposer := proposer, blk := blk, cert_pblk := some qc }, s)
  else
    pure ({ p0 with proposer := proposer, blk := blk, cert_pblk := some qc }, s)

/-- Field bounds making a `Proposal` representable on the wire (the
certificate bound applies when `cert_pblk` is non-null). -/
def Proposal.wf (p : Proposal) : Bool :=
  decide (p.proposer < 256 ^ 2) && p.blk.wf &&
  (match p.cert_pblk with | none => true | some qc => qc.wf)

/-- `Proposal::Proposal(const Proposal &)` (consensus.h:219-224): the copy
constructor evaluates `other.cert_pblk->clone()` and
`new std::vector(*other.status_cert)`, dereferencing both pointers with no
null check; a null pointer is modelled as `none`. -/
def Proposal.copy (p : Proposal) : Option Proposal := do
  let qc ← p.cert_pblk
  let sc ← p.status_cert
  pure { proposer := p.proposer, blk := p.blk,
         cert_pblk := some qc, status_cert := some sc }

/-- `Proposal::verify(VeriPool &)` (consensus.h:499-516): collect
`cert_pblk->verify(config, vpool)` and `s.verify(vpool)` for every `s` in
`*status_cert`, then conjoin them with the stored-hash check
`cert_pblk->get_blk_hash() == Vote::proof_text_hash(blk->get_parent_hashes()[0])`
(the source folds the verdicts with early exit, equivalent to the
conjunction).  Both pointer dereferences are modelled as `none` on null. -/
def Proposal.verify (qcVerify : QuorumCert → ReplicaConfig → Bool)
    (H : Bytes → Nat) (cfg : ReplicaConfig) (p : Proposal) : Option Bool := do
  let qc ← p.cert_pblk
  let sc ← p.status_cert
  let pms : List Bool := qcVerify qc cfg :: sc.map (Notify.verify qcVerify H cfg)
  pure (promiseThen pms (fun values =>
    (qc.blk_hash == Vote.proof_text_hash H (p.blk.parent_hashes.headD 0)) &&
      values.all (fun r => r)))

/-- `struct Finality` (consensus.h:519-563).  `decision` is an `int8_t` and
is modelled as an integer in `[-128, 128)`. -/
structure Finality where
  rid : Nat
  decision : Int
  cmd_idx : Nat
  cmd_height : Nat
  cmd_hash : Nat
  blk_hash : Nat
  deriving DecidableEq

/-- `Finality() = default` (consensus.h:528): value-initialized message, the
target of deserialization. -/
def Finality.default : Finality :=
  ⟨0, 0, 0, 0, 0, 0⟩

/-- `Finality::serialize` (consensus.h:539-544): `s << rid << decision <<
cmd_idx << cmd_height << cmd_hash; if (decision == 1) s << blk_hash`. -/
def Finality.serialize (f : Finality) : Bytes :=
  let s := DataStream.putU16 [] f.rid
  let s := DataStream.putI8 s f.decision
  let s := DataStream.putU32 s f.cmd_idx
  let s := DataStream.putU32 s f.cmd_height
  let s := DataStream.putU256 s f.cmd_hash
  if f.decision = 1 then DataStream.putU256 s f.blk_hash else s

/-- `Finality::unserialize` (consensus.h:546-551): reads the five fixed
fields and then `blk_hash` exactly when the decoded decision equals 1;
otherwise `blk_hash` keeps the value it had in the message being read into
(`f0`, a default-constructed `Finality` in ordinary use). -/
def Finality.unserialize (f0 : Finality) (s : Bytes) : Option (Finality × Bytes) := do
  let (rid, s) ← readLE 2 s
  let (db, s) ← readLE 1 s
  let d := byteToI8 db
  let (idx, s) ← readLE 4 s
  let (hgt, s) ← readLE 4 s
  let (chash, s) ← readLE 32 s
  if d = 1 then do
    let (bh, s) ← readLE 32 s
    pure (⟨rid, d, idx, hgt, chash, bh⟩, s)
  else
    pure (⟨rid, d, idx, hgt, chash, f0.blk_hash⟩, s)

/-- Field bounds making a `Finality` representable on the wire. -/
def Finality.wf (f : Finality) : Bool :=
  decide (f.rid < 256 ^ 2) && decide (-128 ≤ f.decision) && decide (f.decision < 128) &&
  decide (f.cmd_idx < 256 ^ 4) && decide (f.cmd_height < 256 ^ 4) &&
  decide (f.cmd_hash < 256 ^ 32) && decide (f.blk_hash < 256 ^ 32)

/-- The `HotStuffCore` state variables (consensus.h:43-67,80).  The block
members `b0`, `bqc`, `bexec` and the `tails` entries are tracked by block
height (entity.h with the full block representation is not in src/; the
claims over this state concern only heights and the scalar fields).
`priv_key` and the promise queues carry no protocol state relevant to the
claims and are omitted. -/
structure HotStuffCore where
  b0 : Nat
  bqc : Nat
  bexec : Nat
  vheight : Nat
  nheight : Nat
  view : Nat
  status_cert : Option (List Notify)
  tails : List Nat
  config : ReplicaConfig
  neg_vote : Bool
  id : Nat

/-- `HotStuffCore::on_init(nfaulty, delta)` (consensus.h:93-96):
`config.nmajority = nfaulty + 1; config.delta = delta`.  `nfaulty` is a
`uint32_t`, so the sum wraps modulo `2^32`. -/
def HotStuffCore.on_init (st : HotStuffCore) (nfaulty : Nat) (delta : Nat) :
    HotStuffCore :=
  { st with config := { st.config with
      nmajority := (nfaulty + 1) % 2 ^ 32, delta := delta } }

/-- Modelled from the spec: the ingress events of the protocol engine
(§4.5; the handler bodies live in consensus.cpp, which is not in src/).
A proposal event carries the height of the proposed block, the height of
the block attested by its embedded QC (0 when absent), and the result of
the DAG walk checking that the block extends `bqc` (§4.5.2 rule 2). -/
inductive HEvent where
  | receive_proposal (height qcHeight : Nat) (ext : Bool)
  | receive_vote (qcHeight : Nat)
  | receive_notify (n : Notify)
  | receive_blame
  | receive_blamenotify (view : Nat)
  | commit_timeout (height : Nat)

/-- Modelled from the spec: `update(b)` (§4.5.3) — adopt the QC embedded in
the delivered block when it attests a higher block than `bqc`. -/
def updateStep (qcHeight : Nat) (st : HotStuffCore) : HotStuffCore :=
  if qcHeight > st.bqc then { st with bqc := qcHeight } else st

/-- Modelled from the spec: one handler invocation of the protocol engine
(§4.5.2-§4.5.7).  `on_receive_proposal` first runs `update`, then votes —
setting `vheight` to the block height — exactly when `neg_vote` is off, the
block extends `bqc` and its height exceeds `vheight`.  `on_receive_vote`
runs `update` when a QC completes; `on_receive_notify` accumulates the
status certificate; `on_receive_blamenotify` advances the view and raises
`nheight` to `bqc`'s height when emitting the status `Notify`;
`on_commit_timeout` lets the commit rule advance `bexec` up to `bqc`. -/
def HotStuffCore.step (st : HotStuffCore) : HEvent → HotStuffCore
  | .receive_proposal h qch ext =>
    let st := updateStep qch st
    if !st.neg_vote && ext && decide (h > st.vheight) then
      { st with vheight := h }
    else st
  | .receive_vote qch => updateStep qch st
  | .receive_notify n =>
    { st with status_cert := some ((st.status_cert.getD []) ++ [n]) }
  | .receive_blame => st
  | .receive_blamenotify v =>
    { st with view := max st.view (v + 1), nheight := max st.nheight st.bqc }
  | .commit_timeout h =>
    if h ≤ st.bqc && decide (h > st.bexec) then { st with bexec := h } else st

/-! ## Concrete instances used to exercise the definitions -/

/-- A configuration with `nmajority = 1` (one faulty replica tolerated in the
`nmajority = f + 1` regime), trivial `Δ` and public keys. -/
def cfgW : ReplicaConfig := ⟨1, 0, fun _ => 0⟩

/-- A concrete `Notify`. -/
def notify1 : Notify := ⟨5, ⟨7, 9⟩⟩

/-- A concrete `Proposal` carrying a status certificate of `nmajority = 1`
`Notify`s. -/
def prop1 : Proposal := ⟨3, ⟨[2], [4], [6]⟩, some ⟨11, 13⟩, some [notify1]⟩

/-- A concrete `Vote`. -/
def voteW : Vote := ⟨1, 2, ⟨3, 4⟩⟩

/-- A concrete `Blame`. -/
def blameW : Blame := ⟨1, 2, ⟨3, 4⟩⟩

/-- A concrete `BlameNotify`. -/
def blameNotifyW : BlameNotify := ⟨2, ⟨7, 9⟩⟩

/-- A concrete committed `Finality` (decision 1). -/
def finW : Finality := ⟨1, 1, 2, 3, 4, 5⟩

/-- A concrete `Proposal` without a status certificate. -/
def propNoStatus : Proposal := ⟨3, ⟨[2], [4], [6]⟩, some ⟨11, 13⟩, none⟩

/-- A concrete `Proposal` whose certificate hash matches the constant-zero
hash function, with an empty status certificate. -/
def propVerifyW : Proposal := ⟨0, ⟨[2], [4], [6]⟩, some ⟨0, 0⟩, some []⟩

/-- The byte stream of `propNoStatus`. -/
def propNoStatusBytes : Bytes := (Proposal.serialize propNoStatus).getD []

/-- A concrete core state. -/
def coreW : HotStuffCore := ⟨0, 0, 0, 0, 0, 0, none, [], ⟨0, 0, fun _ => 0⟩, false, 0⟩

/-! ## Round-trip lemmas for the wire-format components -/

theorem readRaw_append (a rest : Bytes) :
    readRaw a.length (a ++ rest) = some (a, rest) := by
  simp [readRaw, List.take_left, List.drop_left]

theorem partCert_roundtrip (c : PartCert) (rest : Bytes) (hw : c.wf = true) :
    PartCert.parse (PartCert.serialize c ++ rest) = some (c, rest) := by
  simp only [PartCert.wf, Bool.and_eq_true, decide_eq_true_eq] at hw
  simp [PartCert.parse, PartCert.serialize, List.append_assoc,
    readLE_toLE_of_lt _ _ _ hw.1, readLE_toLE_of_lt _ _ _ hw.2]

theorem quorumCert_roundtrip (c : QuorumCert) (rest : Bytes) (hw : c.wf = true) :
    QuorumCert.parse (QuorumCert.serialize c ++ rest) = some (c, rest) := by
  simp only [QuorumCert.wf, Bool.and_eq_true, decide_eq_true_eq] at hw
  simp [QuorumCert.parse, QuorumCert.serialize, List.append_assoc,
    readLE_toLE_of_lt _ _ _ hw.1, readLE_toLE_of_lt _ _ _ hw.2]

theorem readU256s_ser (l : List Nat) (rest : Bytes)
    (hl : ∀ x ∈ l, x < 256 ^ 32) :
    readU256s l.length (serU256s l ++ rest) = some (l, rest) := by
  induction l with
  | nil => simp [readU256s, serU256s]
  | cons x xs ih =>
    have hx : x < 256 ^ 32 := hl x (by simp)
    simp [readU256s, serU256s, List.append_assoc,
      readLE_toLE_of_lt _ _ _ hx, ih (fun y hy => hl y (by simp [hy]))]

theorem block_roundtrip (b : Block) (rest : Bytes) (hw : b.wf = true) :
    Block.unserialize (Block.serialize b ++ rest) = some (b, rest) := by
  simp only [Block.wf, Bool.and_eq_true, decide_eq_true_eq, List.all_eq_true] at hw
  obtain ⟨⟨⟨⟨⟨h1, h2⟩, h3⟩, h4⟩, h5⟩, h6⟩ := hw
  simp [Block.unserialize, Block.serialize, List.append_assoc,
    readLE_toLE_of_lt _ _ _ h1, readLE_toLE_of_lt _ _ _ h3, readLE_toLE_of_lt _ _ _ h5,
    readU256s_ser _ _ h2, readU256s_ser _ _ h4, readRaw_append]

theorem vote_roundtrip (v : Vote) (rest : Bytes) (hw : v.wf = true) :
    Vote.unserialize (Vote.serialize v ++ rest) = some (v, rest) := by
  simp only [Vote.wf, Bool.and_eq_true, decide_eq_true_eq] at hw
  simp [Vote.unserialize, Vote.serialize, List.append_assoc,
    readLE_toLE_of_lt _ _ _ hw.1.1, readLE_toLE_of_lt _ _ _ hw.1.2,
    partCert_roundtrip _ _ hw.2]

theorem notify_roundtrip (n : Notify) (rest : Bytes) (hw : n.wf = true) :
    Notify.unserialize (Notify.serialize n ++ rest) = some (n, rest) := by
  simp only [Notify.wf, Bool.and_eq_true, decide_eq_true_eq] at hw
  simp [Notify.unserialize, Notify.serialize, List.append_assoc,
    readLE_toLE_of_lt _ _ _ hw.1, quorumCert_roundtrip _ _ hw.2]

theorem blame_roundtrip (b : Blame) (rest : Bytes) (hw : b.wf = true) :
    Blame.unserialize (Blame.serialize b ++ rest) = some (b, rest) := by
  simp only [Blame.wf, Bool.and_eq_true, decide_eq_true_eq] at hw
  simp [Blame.unserialize, Blame.serialize, List.append_assoc,
    readLE_toLE_of_lt _ _ _ hw.1.1, readLE_toLE_of_lt _ _ _ hw.1.2,
    partCert_roundtrip _ _ hw.2]

theorem Blamenotify_roundtrip (b : BlameNotify) (rest : Bytes)
    (hw : b.wf = true) :
    BlameNotify.unserialize (BlameNotify.serialize b ++ rest) = some (b, rest) := by
  simp only [BlameNotify.wf, Bool.and_eq_true, decide_eq_true_eq] at hw
  simp [BlameNotify.unserialize, BlameNotify.serialize, List.append_assoc,
    readLE_toLE_of_lt _ _ _ hw.1, quorumCert_roundtrip _ _ hw.2]

theorem readNotifies_ser (l : List Notify) (rest : Bytes)
    (hl : ∀ n ∈ l, n.wf = true) :
    readNotifies l.length (serNotifies l ++ rest) = some (l, rest) := by
  induction l with
  | nil => simp [readNotifies, serNotifies]
  | cons n ns ih =>
    simp [readNotifies, serNotifies, List.append_assoc,
      notify_roundtrip _ _ (hl n (by simp)),
      ih (fun m hm => hl m (by simp [hm]))]

theorem finality_roundtrip_of_dec1 (f0 f : Finality) (rest : Bytes)
    (hw : f.wf = true) (hd : f.decision = 1) :
    Finality.unserialize f0 (Finality.serialize f ++ rest) = some (f, rest) := by
  obtain ⟨rid, dec, idx, hgt, ch, bh⟩ := f
  simp only at hd
  subst hd
  simp only [Finality.wf, Bool.and_eq_true, decide_eq_true_eq] at hw
  obtain ⟨⟨⟨⟨⟨⟨h1, _⟩, _⟩, h4⟩, h5⟩, h6⟩, h7⟩ := hw
  simp [Finality.serialize, Finality.unserialize, DataStream.putU16, DataStream.putI8,
    DataStream.putU32, DataStream.putU256, List.append_assoc,
    readLE_toLE_of_lt _ _ _ h1, readLE_toLE_of_lt _ _ _ h4, readLE_toLE_of_lt _ _ _ h5,
    readLE_toLE_of_lt _ _ _ h6, readLE_toLE_of_lt _ _ _ h7, readLE_one_cons, byteToI8,
    show (((1 : Int) % 256).toNat : Nat) = 1 by norm_num]

theorem Proposal.roundtrip_of_status_none (cfg : ReplicaConfig) (p : Proposal)
    (qc : QuorumCert) (rest : Bytes) (hq : p.cert_pblk = some qc)
    (hps : p.status_cert = none) (hw : p.wf = true) :
    (Proposal.serialize p).bind
      (fun s => Proposal.unserialize cfg Proposal.default (s ++ rest)) =
      some (p, rest) := by
  obtain ⟨proposer, blk, cp, sc⟩ := p
  simp only at hq hps
  subst hq
  subst hps
  simp only [Proposal.wf, Bool.and_eq_true, decide_eq_true_eq] at hw
  obtain ⟨⟨h1, h2⟩, h3⟩ := hw
  simp [Proposal.serialize, Proposal.unserialize, Proposal.default, DataStream.putU8,
    List.append_assoc, readLE_toLE_of_lt _ _ _ h1, block_roundtrip _ _ h2,
    quorumCert_roundtrip _ _ h3, readLE_one_cons,
    show toLE 1 0 = [0] from rfl]

theorem Proposal.unserialize_preserves_status (cfg : ReplicaConfig) (p0 : Proposal)
    (s : Bytes) (pr : Proposal) (rest : Bytes)
    (h : Proposal.unserialize cfg p0 s = some (pr, rest)) :
    pr.status_cert = p0.status_cert := by
  simp only [Proposal.unserialize, bind, Option.bind_eq_some] at h
  obtain ⟨⟨a, s1⟩, hA, h⟩ := h
  obtain ⟨⟨b, s2⟩, hB, h⟩ := h
  obtain ⟨⟨c, s3⟩, hC, h⟩ := h
  obtain ⟨⟨d, s4⟩, hD, h⟩ := h
  split at h
  · simp only [Option.bind_eq_some] at h
    obtain ⟨⟨e, s5⟩, hE, h⟩ := h
    simp only [pure, Option.some.injEq, Prod.mk.injEq] at h
    rw [← h.1]
  · simp only [pure, Option.some.injEq, Prod.mk.injEq] at h
    rw [← h.1]

theorem updateStep_vheight (q : Nat) (st : HotStuffCore) :
    (updateStep q st).vheight = st.vheight := by
  unfold updateStep
  split <;> rfl

theorem updateStep_neg_vote (q : Nat) (st : HotStuffCore) :
    (updateStep q st).neg_vote = st.neg_vote := by
  unfold updateStep
  split <;> rfl

theorem step_vheight_le (st : HotStuffCore) (e : HEvent) :
    st.vheight ≤ (st.step e).vheight := by
  cases e with
  | receive_proposal h qch ext =>
    simp only [HotStuffCore.step]
    split
    · next hc =>
      simp only [Bool.and_eq_true, decide_eq_true_eq, updateStep_vheight] at hc
      simp only [updateStep_vheight] at hc ⊢
      omega
    · simp [updateStep_vheight]
  | receive_vote qch => simp [HotStuffCore.step, updateStep_vheight]
  | receive_notify n => simp [HotStuffCore.step]
  | receive_blame => simp [HotStuffCore.step]
  | receive_blamenotify v => simp [HotStuffCore.step]
  | commit_timeout h =>
    simp only [HotStuffCore.step]
    split <;> simp

theorem step_receive_proposal_vheight (st : HotStuffCore) (h qch : Nat) (ext : Bool) :
    (st.step (.receive_proposal h qch ext)).vheight =
      if !st.neg_vote && ext && decide (h > st.vheight) then h else st.vheight := by
  simp only [HotStuffCore.step, updateStep_neg_vote, updateStep_vheight]
  split
  · next hc => simp [hc]
  · next hc => simp [updateStep_vheight, hc]

theorem trace_vheight_le (evs : List HEvent) (st : HotStuffCore) :
    st.vheight ≤ (evs.foldl HotStuffCore.step st).vheight := by
  induction evs generalizing st with
  | nil => simp
  | cons e evs ih =>
    calc st.vheight ≤ (st.step e).vheight := step_vheight_le st e
      _ ≤ (evs.foldl HotStuffCore.step (st.step e)).vheight := ih (st.step e)
      _ = ((e :: evs).foldl HotStuffCore.step st).vheight := by simp [List.foldl_cons]

/-! ## Claim theorems -/

set_option maxRecDepth 100000 in
/-- C1: `Proposal::unserialize` on a stream with `has_status = 1` does parse
exactly `nmajority` `Notify`s (the stream is fully consumed below), but the
parsed `Notify`s are dropped — the resulting message's `status_cert` is
still null instead of holding them, because the source reads them into a
local vector that shadows the member.  Evaluated on a concrete proposal
`prop1` carrying one `Notify` under `nmajority = 1`. -/
theorem C1_unserialize_drops_status_cert :
    cfgW.nmajority = 1 ∧
    prop1.status_cert = some [notify1] ∧
    (Proposal.serialize prop1).bind (Proposal.unserialize cfgW Proposal.default) =
      some ({ prop1 with status_cert := none }, []) := by
  decide

/-- C2 (counterexample): the round-trip law fails as universally stated — a
`Finality` with `decision = 0` and a non-zero `blk_hash` does not survive
serialization, because `blk_hash` is only written when `decision == 1`. -/
theorem C2_roundtrip_counterexample :
    Finality.unserialize Finality.default
        (Finality.serialize ⟨0, 0, 0, 0, 0, 1⟩) ≠ some ((⟨0, 0, 0, 0, 0, 1⟩ : Finality), []) := by
  decide

/-- C2 (amended): unserializing the serialization yields the original message
for `Vote`, `Notify`, `Blame` and `BlameNotify` unconditionally (within wire
bounds); for `Finality` when `decision = 1`; and for `Proposal` when
`status_cert` is null. -/
theorem C2_roundtrip_amended (v : Vote) (n : Notify) (b : Blame) (bn : BlameNotify)
    (f : Finality) (p : Proposal) (qc : QuorumCert) (cfg : ReplicaConfig)
    (hv : v.wf = true) (hn : n.wf = true) (hb : b.wf = true) (hbn : bn.wf = true)
    (hf : f.wf = true) (hfd : f.decision = 1)
    (hp : p.wf = true) (hq : p.cert_pblk = some qc) (hps : p.status_cert = none) :
    Vote.unserialize (Vote.serialize v) = some (v, []) ∧
    Notify.unserialize (Notify.serialize n) = some (n, []) ∧
    Blame.unserialize (Blame.serialize b) = some (b, []) ∧
    BlameNotify.unserialize (BlameNotify.serialize bn) = some (bn, []) ∧
    Finality.unserialize Finality.default (Finality.serialize f) = some (f, []) ∧
    (Proposal.serialize p).bind (Proposal.unserialize cfg Proposal.default) =
      some (p, []) := by
  refine ⟨?_, ?_, ?_, ?_, ?_, ?_⟩
  · simpa using vote_roundtrip v [] hv
  · simpa using notify_roundtrip n [] hn
  · simpa using blame_roundtrip b [] hb
  · simpa using Blamenotify_roundtrip bn [] hbn
  · simpa using finality_roundtrip_of_dec1 Finality.default f [] hf hfd
  · simpa using Proposal.roundtrip_of_status_none cfg p qc [] hq hps hp

/-- C2 (witness): the amended round-trip law at concrete messages of every
kind. -/
theorem C2_roundtrip_amended_witness :
    Vote.unserialize (Vote.serialize voteW) = some (voteW, []) ∧
    Notify.unserialize (Notify.serialize notify1) = some (notify1, []) ∧
    Blame.unserialize (Blame.serialize blameW) = some (blameW, []) ∧
    BlameNotify.unserialize (BlameNotify.serialize blameNotifyW) =
      some (blameNotifyW, []) ∧
    Finality.unserialize Finality.default (Finality.serialize finW) = some (finW, []) ∧
    (Proposal.serialize propNoStatus).bind (Proposal.unserialize cfgW Proposal.default) =
      some (propNoStatus, []) :=
  C2_roundtrip_amended voteW notify1 blameW blameNotifyW finW propNoStatus ⟨11, 13⟩ cfgW
    (by decide) (by decide) (by decide) (by decide) (by decide) rfl (by decide) rfl rfl

/-- C3: `vheight` never decreases — a single handler invocation never lowers
it, `on_receive_proposal` raises it to the proposed block's height exactly
when the vote rule fires (which requires `height > vheight`), and along any
trace of handler invocations `vheight` is monotonically non-decreasing. -/
theorem C3_vheight_monotone :
    (∀ (st : HotStuffCore) (e : HEvent), st.vheight ≤ (st.step e).vheight) ∧
    (∀ (st : HotStuffCore) (h qch : Nat) (ext : Bool),
      (st.step (.receive_proposal h qch ext)).vheight =
        if !st.neg_vote && ext && decide (h > st.vheight) then h else st.vheight) ∧
    (∀ (evs : List HEvent) (st : HotStuffCore),
      st.vheight ≤ (evs.foldl HotStuffCore.step st).vheight) :=
  ⟨step_vheight_le, step_receive_proposal_vheight, trace_vheight_le⟩

/-- C4: `Proposal::verify` resolves to true exactly when the quorum
certificate `cert_pblk` is valid, its stored proof-text hash equals
`Vote::proof_text_hash` of the block's first parent hash, and every `Notify`
of the status certificate verifies. -/
theorem C4_proposal_verify_iff (qcVerify : QuorumCert → ReplicaConfig → Bool)
    (H : Bytes → Nat) (cfg : ReplicaConfig) (p : Proposal)
    (qc : QuorumCert) (sc : List Notify)
    (hq : p.cert_pblk = some qc) (hs : p.status_cert = some sc) :
    Proposal.verify qcVerify H cfg p = some true ↔
      (qcVerify qc cfg = true ∧
       qc.blk_hash = Vote.proof_text_hash H (p.blk.parent_hashes.headD 0) ∧
       ∀ n ∈ sc, Notify.verify qcVerify H cfg n = true) := by
  simp only [Proposal.verify, hq, hs, promiseThen, bind, pure, Option.some_bind,
    Option.some.injEq, Bool.and_eq_true, beq_iff_eq, List.all_cons,
    List.all_eq_true, Function.comp]
  constructor
  · rintro ⟨hh, hv, hall⟩
    exact ⟨hv, hh, fun n hn => hall _ (List.mem_map_of_mem _ hn)⟩
  · rintro ⟨hv, hh, hall⟩
    refine ⟨hh, hv, fun x hx => ?_⟩
    obtain ⟨n, hn, rfl⟩ := List.mem_map.1 hx
    exact hall n hn

/-- C4 (witness): a concrete proposal whose certificate hash matches under a
trivially-true quorum check and constant hash verifies. -/
theorem C4_proposal_verify_iff_witness :
    Proposal.verify (fun _ _ => true) (fun _ => 0) cfgW propVerifyW = some true :=
  (C4_proposal_verify_iff (fun _ _ => true) (fun _ => 0) cfgW propVerifyW ⟨0, 0⟩ []
    rfl rfl).mpr ⟨rfl, rfl, by simp⟩

/-- C5: `Vote::verify()` returns true exactly when the partial certificate
verifies under the public key the configuration maps to `voter` and the
certificate's stored proof-text hash equals `Vote::proof_text_hash(blk_hash)`;
the asynchronous `verify(vpool)` resolves to the same value. -/
theorem C5_vote_verify_iff (pcVerify : PartCert → Nat → Bool) (H : Bytes → Nat)
    (cfg : ReplicaConfig) (v : Vote) :
    (Vote.verify pcVerify H cfg v = true ↔
      (pcVerify v.cert (cfg.get_pubkey v.voter) = true ∧
       v.cert.blk_hash = Vote.proof_text_hash H v.blk_hash)) ∧
    Vote.verify_async pcVerify H cfg v = Vote.verify pcVerify H cfg v := by
  simp [Vote.verify, Vote.verify_async, promiseThen, Bool.and_eq_true, beq_iff_eq]

/-- C6: `Vote::proof_text_hash(blk_hash)` is the hash of the byte string
`0x00 ‖ blk_hash` (33 bytes: tag plus the 32-byte hash) and
`Blame::proof_text_hash(view)` is the hash of `0x01 ‖ view_le_u32` (5 bytes:
tag plus the 4-byte little-endian view) — each returns the hash `H` of the
proof text, not the text. -/
theorem C6_proof_text_hash (H : Bytes → Nat) (blk_hash view : Nat) :
    Vote.proof_text_hash H blk_hash = H (0x00 :: toLE 32 blk_hash) ∧
    Blame.proof_text_hash H view = H (0x01 :: toLE 4 view) ∧
    (0x00 :: toLE 32 blk_hash).length = 33 ∧
    (0x01 :: toLE 4 view).length = 5 := by
  simp [Vote.proof_text_hash, Blame.proof_text_hash, voteProofText, blameProofText,
    DataStream.putU8, DataStream.putU32, DataStream.putU256,
    ProofType.VOTE, ProofType.BLAME, toLE_length,
    show toLE 1 0 = [0] from rfl, show toLE 1 1 = [1] from rfl]

/-- C7: `Finality::serialize` writes `rid`, `decision`, `cmd_idx`,
`cmd_height`, `cmd_hash` in that order and appends `blk_hash` exactly when
`decision = 1`; `Finality::unserialize` reads a `blk_hash` from the stream
exactly when the decoded decision byte equals 1, otherwise `blk_hash` keeps
the pre-existing value. -/
theorem C7_finality_serialization :
    (∀ f : Finality,
      Finality.serialize f =
        toLE 2 f.rid ++ [(f.decision % 256).toNat] ++ toLE 4 f.cmd_idx ++
        toLE 4 f.cmd_height ++ toLE 32 f.cmd_hash ++
        (if f.decision = 1 then toLE 32 f.blk_hash else [])) ∧
    (∀ (f0 : Finality) (rid d idx hgt chash : Nat) (rest : Bytes),
      rid < 256 ^ 2 → d < 256 → idx < 256 ^ 4 → hgt < 256 ^ 4 → chash < 256 ^ 32 →
      Finality.unserialize f0
          (toLE 2 rid ++ toLE 1 d ++ toLE 4 idx ++ toLE 4 hgt ++ toLE 32 chash ++ rest) =
        if byteToI8 d = 1 then
          match readLE 32 rest with
          | some (bh, s2) => some (⟨rid, 1, idx, hgt, chash, bh⟩, s2)
          | none => none
        else some (⟨rid, byteToI8 d, idx, hgt, chash, f0.blk_hash⟩, rest)) := by
  constructor
  · intro f
    simp only [Finality.serialize, DataStream.putU16, DataStream.putI8, DataStream.putU32,
      DataStream.putU256, List.nil_append]
    split <;> simp [List.append_assoc]
  · intro f0 rid d idx hgt chash rest h1 h2 h3 h4 h5
    have hd : toLE 1 d = [d] := by simp [toLE, Nat.mod_eq_of_lt h2]
    simp only [Finality.unserialize, hd, List.append_assoc, List.cons_append,
      List.nil_append]
    simp [readLE_toLE_of_lt _ _ _ h1, readLE_one_cons, readLE_toLE_of_lt _ _ _ h3,
      readLE_toLE_of_lt _ _ _ h4, readLE_toLE_of_lt _ _ _ h5]
    by_cases hD : byteToI8 d = 1
    · simp only [if_pos hD, hD]
      rcases hr : readLE 32 rest with _ | ⟨bh, s2⟩ <;> simp [hr]
    · simp [if_neg hD, hD]

/-- C7 (witness): unserializing a concrete committed record (decision byte 1)
reads the trailing `blk_hash`. -/
theorem C7_finality_serialization_witness :
    Finality.unserialize Finality.default
        (toLE 2 3 ++ toLE 1 1 ++ toLE 4 4 ++ toLE 4 5 ++ toLE 32 6 ++ toLE 32 7) =
      some ((⟨3, 1, 4, 5, 6, 7⟩ : Finality), []) := by
  have h := C7_finality_serialization.2 Finality.default 3 1 4 5 6 (toLE 32 7)
    (by norm_num) (by norm_num) (by norm_num) (by norm_num) (by norm_num)
  rw [h]
  decide

/-- C8 (counterexample): `on_init` computes `nfaulty + 1` in `uint32_t`
arithmetic, so at `nfaulty = 2^32 - 1` the stored `nmajority` is 0, not
`nfaulty + 1`. -/
theorem C8_on_init_counterexample :
    (coreW.on_init (2 ^ 32 - 1) 0).config.nmajority ≠ (2 ^ 32 - 1) + 1 := by
  decide

/-- C8 (amended): `on_init(nfaulty, delta)` sets `config.nmajority` to
`(nfaulty + 1) mod 2^32` — which equals `nfaulty + 1` whenever that sum fits
in 32 bits — sets `config.delta` to `delta`, and modifies no other field of
the core state. -/
theorem C8_on_init_amended (st : HotStuffCore) (nfaulty delta : Nat) :
    (st.on_init nfaulty delta).config.nmajority = (nfaulty + 1) % 2 ^ 32 ∧
    (nfaulty + 1 < 2 ^ 32 → (st.on_init nfaulty delta).config.nmajority = nfaulty + 1) ∧
    (st.on_init nfaulty delta).config.delta = delta ∧
    (st.on_init nfaulty delta).config.pubkeys = st.config.pubkeys ∧
    (st.on_init nfaulty delta).b0 = st.b0 ∧
    (st.on_init nfaulty delta).bqc = st.bqc ∧
    (st.on_init nfaulty delta).bexec = st.bexec ∧
    (st.on_init nfaulty delta).vheight = st.vheight ∧
    (st.on_init nfaulty delta).nheight = st.nheight ∧
    (st.on_init nfaulty delta).view = st.view ∧
    (st.on_init nfaulty delta).status_cert = st.status_cert ∧
    (st.on_init nfaulty delta).tails = st.tails ∧
    (st.on_init nfaulty delta).neg_vote = st.neg_vote ∧
    (st.on_init nfaulty delta).id = st.id := by
  refine ⟨rfl, fun h => ?_, rfl, rfl, rfl, rfl, rfl, rfl, rfl, rfl, rfl, rfl, rfl, rfl⟩
  have h2 : nfaulty + 1 < 4294967296 := by omega
  simp [HotStuffCore.on_init, Nat.mod_eq_of_lt h2]

/-- C8 (witness): initializing with one faulty replica stores
`nmajority = 2`. -/
theorem C8_on_init_amended_witness :
    (coreW.on_init 1 7).config.nmajority = 1 + 1 :=
  (C8_on_init_amended coreW 1 7).2.1 (by norm_num)

/-- C9: `Proposal::verify` and the `Proposal` copy constructor succeed (no
null dereference) exactly when both `cert_pblk` and `status_cert` are
non-null; a default-constructed proposal has a null `status_cert`, on it both
operations hit the null dereference, and `Proposal::unserialize` never
installs a status certificate into the message (in particular a proposal
unserialized from a `has_status = 0` stream into a default-constructed
message keeps `status_cert` null). -/
theorem C9_null_deref_precondition (qcVerify : QuorumCert → ReplicaConfig → Bool)
    (H : Bytes → Nat) (cfg : ReplicaConfig) (p : Proposal) :
    ((Proposal.verify qcVerify H cfg p).isSome ↔
      (p.cert_pblk.isSome ∧ p.status_cert.isSome)) ∧
    ((Proposal.copy p).isSome ↔ (p.cert_pblk.isSome ∧ p.status_cert.isSome)) ∧
    Proposal.default.status_cert = none ∧
    Proposal.verify qcVerify H cfg Proposal.default = none ∧
    Proposal.copy Proposal.default = none ∧
    (∀ (cfg2 : ReplicaConfig) (p0 : Proposal) (s : Bytes) (pr : Proposal) (rest : Bytes),
      Proposal.unserialize cfg2 p0 s = some (pr, rest) →
        pr.status_cert = p0.status_cert) := by
  refine ⟨?_, ?_, rfl, rfl, rfl, Proposal.unserialize_preserves_status⟩ <;>
    rcases hq : p.cert_pblk with _ | qc <;> rcases hs : p.status_cert with _ | sc <;>
      simp [Proposal.verify, Proposal.copy, hq, hs]

/-- C9 (witness): a proposal with both pointers non-null copies successfully,
and unserializing a concrete `has_status = 0` stream into a
default-constructed proposal leaves `status_cert` equal to the (null)
pre-state value. -/
theorem C9_null_deref_precondition_witness :
    (Proposal.copy prop1).isSome = true ∧
    propNoStatus.status_cert = Proposal.default.status_cert := by
  constructor
  · exact (C9_null_deref_precondition (fun _ _ => true) (fun _ => 0) cfgW prop1).2.1.mpr
      (by decide)
  · exact (C9_null_deref_precondition (fun _ _ => true) (fun _ => 0) cfgW prop1).2.2.2.2.2
      cfgW Proposal.default propNoStatusBytes propNoStatus [] (by decide)

/-- C10: the vote proof text (tag `0x00` then the block hash) and the blame
proof text (tag `0x01` then the little-endian view) are distinct byte strings
for every block hash and view — their leading tag bytes differ, so the two
proof-text domains never overlap. -/
theorem C10_proof_text_domains_disjoint (blk_hash view : Nat) :
    voteProofText blk_hash ≠ blameProofText view ∧
    (voteProofText blk_hash).head? = some 0x00 ∧
    (blameProofText view).head? = some 0x01 := by
  refine ⟨?_, ?_, ?_⟩ <;>
    simp [voteProofText, blameProofText, DataStream.putU8, DataStream.putU32,
      DataStream.putU256, ProofType.VOTE, ProofType.BLAME,
      show toLE 1 0 = [0] from rfl, show toLE 1 1 = [1] from rfl]

end HotStuff
